import Mathlib

/-
Shallow embedding of src/naver2google.py (yzubot/naver2google).

Modelling conventions:
* Python str is Lean String / List Char (Unicode code points).
* Python float is modelled as an exact rational number (Rat): every float
  value the program handles is parsed from a finite decimal literal, which
  the model represents exactly.  The special values inf/infinity/nan,
  non-ASCII digits, rounding of a literal to the nearest binary double
  (including overflow of huge exponents to infinity), and CPython's
  17-significant-digit shortest-repr rounding and exponent display for
  extreme magnitudes are outside the model; no claim exercises them.
* Network effects (requests.head / requests.get) are modelled by an explicit
  environment (Net) passed to convert, and convert additionally returns the
  list of network calls it performed, in order.
* An exception escaping convert (only possible from the short-link resolver)
  is the PyResult.raised outcome; the Python error dict is
  PyResult.errorDict.
-/

namespace Naver2Google

/-- Whitespace as recognised by Python str.strip and float parsing: the
str.isspace character class (ASCII whitespace, the C0 separators, and the
common Unicode space characters). -/
def isPyWs (c : Char) : Bool :=
  c = ' ' || c = '\t' || c = '\n' || c = '\r' ||
  c.toNat = 11 || c.toNat = 12 ||
  (28 ≤ c.toNat && c.toNat ≤ 31) ||
  c.toNat = 0x85 || c.toNat = 0xA0 || c.toNat = 0x1680 ||
  (0x2000 ≤ c.toNat && c.toNat ≤ 0x200A) ||
  c.toNat = 0x2028 || c.toNat = 0x2029 || c.toNat = 0x202F ||
  c.toNat = 0x205F || c.toNat = 0x3000

/-- Remove the trailing run of characters satisfying p. -/
def dropTrailing (p : Char → Bool) (l : List Char) : List Char :=
  (l.reverse.dropWhile p).reverse

/-- Python str.strip() with no argument: remove leading and trailing
whitespace. -/
def stripL (l : List Char) : List Char :=
  dropTrailing isPyWs (l.dropWhile isPyWs)

def pyStrip (s : String) : String := ⟨stripL s.data⟩

/-- Does the second list start with the first one? -/
def startsWithL : List Char → List Char → Bool
  | [], _ => true
  | _ :: _, [] => false
  | a :: n, b :: m => a = b && startsWithL n m

/-- The Python substring test (needle in haystack), as a scan over start
positions. -/
def containsL (needle : List Char) : List Char → Bool
  | [] => needle.isEmpty
  | c :: t => startsWithL needle (c :: t) || containsL needle t

def pyIn (needle hay : String) : Bool := containsL needle.data hay.data

/-- Split a list at the first occurrence of sep (Python split(sep, 1)), if
sep occurs at all. -/
def splitFirst (sep : Char) : List Char → Option (List Char × List Char)
  | [] => none
  | c :: t =>
    if c = sep then some ([], t)
    else
      match splitFirst sep t with
      | some (a, b) => some (c :: a, b)
      | none => none

/-- Python str.split(sep): the empty string yields one empty field. -/
def splitAll (sep : Char) (l : List Char) : List (List Char) :=
  l.foldr
    (fun c res =>
      match res with
      | [] => [[c]]
      | cur :: rest => if c = sep then [] :: cur :: rest else (c :: cur) :: rest)
    [[]]

/-- urllib.parse.urlsplit removes every tab, CR and LF from the URL before
parsing. -/
def removeUnsafeBytes (l : List Char) : List Char :=
  l.filter (fun c => !(c = '\t' || c = '\r' || c = '\n'))

def isC0OrSpace (c : Char) : Bool := c.toNat ≤ 0x20

/-- The query component of urllib.parse.urlparse: urlsplit strips C0
controls/spaces from the left end only (trailing ones are deliberately
preserved by CPython), removes tab/CR/LF, then the query is the text after
the first question mark of the part preceding the first hash mark.  (Scheme
and netloc contain neither separator, so splitting the whole string is
equivalent to urlsplit.) -/
def getQuery (url : String) : List Char :=
  let u := removeUnsafeBytes (url.data.dropWhile isC0OrSpace)
  let pre :=
    match splitFirst '#' u with
    | some (a, _) => a
    | none => u
  match splitFirst '?' pre with
  | some (_, q) => q
  | none => []

def isHexDigitL (c : Char) : Bool :=
  c.isDigit || ('a' ≤ c && c ≤ 'f') || ('A' ≤ c && c ≤ 'F')

def hexVal (c : Char) : Nat :=
  if c.isDigit then c.toNat - 48
  else if 'a' ≤ c then c.toNat - 87
  else c.toNat - 55

/-- UTF-8 encoding of one code point. -/
def utf8EncodeChar (c : Char) : List Nat :=
  let n := c.toNat
  if n < 0x80 then [n]
  else if n < 0x800 then [0xC0 + n / 0x40, 0x80 + n % 0x40]
  else if n < 0x10000 then
    [0xE0 + n / 0x1000, 0x80 + n / 0x40 % 0x40, 0x80 + n % 0x40]
  else
    [0xF0 + n / 0x40000, 0x80 + n / 0x1000 % 0x40, 0x80 + n / 0x40 % 0x40,
     0x80 + n % 0x40]

def replChar : Char := Char.ofNat 0xFFFD

def isCont (b : Nat) : Bool := 0x80 ≤ b && b ≤ 0xBF

/-- UTF-8 decoding with the replace error handler: one replacement character
per maximal subpart of an ill-formed sequence, as bytes.decode with
errors="replace" behaves in CPython. -/
def utf8DecodeAux : Nat → List Nat → List Char
  | 0, _ => []
  | _, [] => []
  | fuel+1, b :: r =>
    if b < 0x80 then Char.ofNat b :: utf8DecodeAux fuel r
    else if 0xC2 ≤ b && b ≤ 0xDF then
      match r with
      | b1 :: r1 =>
        if isCont b1 then
          Char.ofNat ((b - 0xC0) * 0x40 + (b1 - 0x80)) :: utf8DecodeAux fuel r1
        else replChar :: utf8DecodeAux fuel r
      | [] => [replChar]
    else if 0xE0 ≤ b && b ≤ 0xEF then
      let lo := if b = 0xE0 then 0xA0 else 0x80
      let hi := if b = 0xED then 0x9F else 0xBF
      match r with
      | b1 :: r1 =>
        if lo ≤ b1 && b1 ≤ hi then
          match r1 with
          | b2 :: r2 =>
            if isCont b2 then
              Char.ofNat ((b - 0xE0) * 0x1000 + (b1 - 0x80) * 0x40 + (b2 - 0x80))
                :: utf8DecodeAux fuel r2
            else replChar :: utf8DecodeAux fuel r1
          | [] => [replChar]
        else replChar :: utf8DecodeAux fuel r
      | [] => [replChar]
    else if 0xF0 ≤ b && b ≤ 0xF4 then
      let lo := if b = 0xF0 then 0x90 else 0x80
      let hi := if b = 0xF4 then 0x8F else 0xBF
      match r with
      | b1 :: r1 =>
        if lo ≤ b1 && b1 ≤ hi then
          match r1 with
          | b2 :: r2 =>
            if isCont b2 then
              match r2 with
              | b3 :: r3 =>
                if isCont b3 then
                  Char.ofNat ((b - 0xF0) * 0x40000 + (b1 - 0x80) * 0x1000 +
                    (b2 - 0x80) * 0x40 + (b3 - 0x80)) :: utf8DecodeAux fuel r3
                else replChar :: utf8DecodeAux fuel r2
              | [] => [replChar]
            else replChar :: utf8DecodeAux fuel r1
          | [] => [replChar]
        else replChar :: utf8DecodeAux fuel r
      | [] => [replChar]
    else replChar :: utf8DecodeAux fuel r

def utf8Decode (bs : List Nat) : List Char := utf8DecodeAux (bs.length + 1) bs

/-- urllib.parse.unquote: maximal runs of %XX escapes are decoded as UTF-8
byte sequences (replace error handler); a percent sign not followed by two
hex digits, and every other character, passes through unchanged. -/
def unquoteAux : Nat → List Nat → List Char → List Char
  | _, acc, [] => utf8Decode acc
  | 0, acc, l => utf8Decode acc ++ l
  | fuel+1, acc, '%' :: h1 :: h2 :: r =>
    if isHexDigitL h1 && isHexDigitL h2 then
      unquoteAux fuel (acc ++ [hexVal h1 * 16 + hexVal h2]) r
    else utf8Decode acc ++ '%' :: unquoteAux fuel [] (h1 :: h2 :: r)
  | fuel+1, acc, c :: r => utf8Decode acc ++ c :: unquoteAux fuel [] r

def unquote (s : String) : String := ⟨unquoteAux s.data.length [] s.data⟩

def plusToSpace (l : List Char) : List Char :=
  l.map fun c => if c = '+' then ' ' else c

/-- urllib.parse.unquote_plus: plus signs become spaces, then unquote. -/
def unquote_plus (s : String) : String := unquote ⟨plusToSpace s.data⟩

def isAlwaysSafe (c : Char) : Bool :=
  ('A' ≤ c && c ≤ 'Z') || ('a' ≤ c && c ≤ 'z') || c.isDigit ||
  c = '_' || c = '.' || c = '-' || c = '~' || c = '/'

def hexDigitChar (n : Nat) : Char :=
  if n < 10 then Char.ofNat (48 + n) else Char.ofNat (55 + n)

/-- urllib.parse.quote of one character with the default safe set (letters,
digits, underscore dot dash tilde, and the slash): non-safe characters are
UTF-8 encoded and percent-escaped with uppercase hex. -/
def quoteChar (c : Char) : List Char :=
  if isAlwaysSafe c then [c]
  else
    (utf8EncodeChar c).foldr
      (fun b acc => '%' :: hexDigitChar (b / 16) :: hexDigitChar (b % 16) :: acc) []

def quote (s : String) : String :=
  ⟨s.data.foldr (fun c acc => quoteChar c ++ acc) []⟩

/-- urllib.parse.parse_qsl with default arguments: split on the ampersand,
skip empty fields, fields without an equals sign and fields with an empty
value, then plus/percent-decode names and values. -/
def parse_qsl (qs : List Char) : List (String × String) :=
  (splitAll '&' qs).filterMap fun field =>
    if field.isEmpty then none
    else
      match splitFirst '=' field with
      | none => none
      | some (n, v) =>
        if v.isEmpty then none
        else some (unquote_plus ⟨n⟩, unquote_plus ⟨v⟩)

/-- First value recorded for a key, as params[key][0] after parse_qs. -/
def findFirstVal : List (String × String) → String → Option String
  | [], _ => none
  | (a, b) :: t, k => if a = k then some b else findFirstVal t k

def digitVal (c : Char) : Nat := c.toNat - 48

/-- A run of decimal digits with single underscores allowed strictly
between digits, as in Python numeric literals (a run never starts with an
underscore, so e.g. the fraction of "1._5" is empty and the whole literal
is rejected): accumulated value, digit count, rest. -/
def digitRun : List Char → Nat → Nat → Nat × Nat × List Char
  | [], acc, k => (acc, k, [])
  | c :: r, acc, k =>
    if c.isDigit then digitRun r (acc * 10 + digitVal c) (k + 1)
    else if c = '_' then
      if k = 0 then (acc, k, c :: r)
      else
        match r with
        | d :: r1 =>
          if d.isDigit then digitRun r1 (acc * 10 + digitVal d) (k + 1)
          else (acc, k, c :: r)
        | [] => (acc, k, c :: r)
    else (acc, k, c :: r)

/-- The exponent part of a Python float literal: optional sign, then a
nonempty digit run. -/
def parseExp (l : List Char) : Option (Int × List Char) :=
  let (es, l1) :=
    match l with
    | '-' :: t => ((-1 : Int), t)
    | '+' :: t => ((1 : Int), t)
    | _ => ((1 : Int), l)
  match l1 with
  | c :: _ =>
    if c.isDigit then
      let (v, _, r) := digitRun l1 0 0
      some (es * (v : Int), r)
    else none
  | [] => none

/-- Python float(string) on the fragment of its grammar the model supports:
optional surrounding whitespace, optional sign, decimal mantissa with
optional fraction, optional decimal exponent, underscores between digits.
The whole input must be consumed.  The result is the exact rational value of
the literal. -/
def parsePyFloat (l : List Char) : Option Rat :=
  let l0 := dropTrailing isPyWs (l.dropWhile isPyWs)
  let (sgn, l1) :=
    match l0 with
    | '-' :: t => ((-1 : Int), t)
    | '+' :: t => ((1 : Int), t)
    | _ => ((1 : Int), l0)
  let mant : Option (Nat × Nat × List Char) :=
    match l1 with
    | '.' :: t =>
      let (m, k, r) := digitRun t 0 0
      if k = 0 then none else some (m, k, r)
    | c :: _ =>
      if c.isDigit then
        let (m1, _, r1) := digitRun l1 0 0
        match r1 with
        | '.' :: t =>
          let (m2, k2, r2) := digitRun t 0 0
          some (m1 * 10 ^ k2 + m2, k2, r2)
        | _ => some (m1, 0, r1)
      else none
    | [] => none
  match mant with
  | none => none
  | some (m, f, rest) =>
    let expo : Option (Int × List Char) :=
      match rest with
      | 'e' :: t => parseExp t
      | 'E' :: t => parseExp t
      | _ => some (0, rest)
    match expo with
    | none => none
    | some (e, rest2) =>
      if rest2.isEmpty then
        let p : Int := e - (f : Int)
        if 0 ≤ p then some (mkRat (sgn * (m : Int) * (10 : Int) ^ p.toNat) 1)
        else some (mkRat (sgn * (m : Int)) (10 ^ (-p).toNat))
      else none

def digitChar (n : Nat) : Char := Char.ofNat (48 + n)

def natDigitsAux : Nat → Nat → List Char
  | 0, _ => []
  | fuel+1, n =>
    if n < 10 then [digitChar n]
    else natDigitsAux fuel (n / 10) ++ [digitChar (n % 10)]

def natDigits (n : Nat) : List Char := natDigitsAux (n + 1) n

/-- Decimal digits of the fraction n/d (n < d), stopping at remainder zero,
so without trailing zeros; empty when the fraction is zero. -/
def fracDigits : Nat → Nat → Nat → List Char
  | 0, _, _ => []
  | fuel+1, n, d =>
    if n = 0 then []
    else digitChar (n * 10 / d) :: fracDigits fuel (n * 10 % d) d

/-- str(float) for the values the model produces: sign, integer part, a dot
and the fraction digits (at least one: 0 for integral values), for example
"37.5", "127.0", "-1.25".  CPython's exponent display for extreme magnitudes
and shortest-repr rounding are outside the model. -/
def formatFloat (q : Rat) : String :=
  let sgn : String := if q < 0 then "-" else ""
  let n := q.num.natAbs
  let d := q.den
  let fds := fracDigits d (n % d) d
  sgn ++ (⟨natDigits (n / d)⟩ : String) ++ "." ++
    (if fds.isEmpty then "0" else (⟨fds⟩ : String))

mutual
/-- JSON values as produced by response.json(). -/
inductive Json where
  | null
  | bool (b : Bool)
  | num (q : Rat)
  | str (s : String)
  | arr (elems : JsonArr)
  | obj (fields : JsonObj)
/-- A JSON array. -/
inductive JsonArr where
  | nil
  | cons (hd : Json) (tl : JsonArr)
/-- The fields of a JSON object, in order. -/
inductive JsonObj where
  | nil
  | cons (key : String) (value : Json) (tl : JsonObj)
end

/-- Key lookup in an object; json.loads keeps the last duplicate key, so the
last binding wins. -/
def objLookup : JsonObj → String → Option Json
  | .nil, _ => none
  | .cons k v t, key =>
    match objLookup t key with
    | some r => some r
    | none => if k = key then some v else none

/-- Python dict.get(key, default) on a JSON value: none models the
AttributeError raised when the receiver is not an object. -/
def pyGetD (j : Json) (key : String) (dflt : Json) : Option Json :=
  match j with
  | .obj fs => some ((objLookup fs key).getD dflt)
  | _ => none

def isNull : Json → Bool
  | .null => true
  | _ => false

/-- Python float() applied to a JSON value: numbers and booleans convert
directly, strings are parsed, anything else raises (modelled none). -/
def pyFloat : Json → Option Rat
  | .num q => some q
  | .bool b => some (mkRat (if b then 1 else 0) 1)
  | .str s => parsePyFloat s.data
  | _ => none

/-- Outcome of an HTTP GET in the model: a transport-level exception (which
also covers an unparseable JSON body) or a status code with a JSON body. -/
inductive HttpResult where
  | exn
  | response (status : Nat) (body : Json)

/-- The network environment: requests.head with redirects (none models a
raised exception, some the final URL) and requests.get on the place API
(with response.json() already applied, see HttpResult). -/
structure Net where
  head : String → Option String
  get : String → HttpResult

/-- One outbound network call, in the order convert performs them. -/
inductive NetCall where
  | head (url : String)
  | get (url : String)
deriving DecidableEq

def takeDigits (l : List Char) : List Char × List Char :=
  (l.takeWhile Char.isDigit, l.dropWhile Char.isDigit)

def digitsToNat (l : List Char) : Nat :=
  l.foldl (fun a c => a * 10 + digitVal c) 0

def placePat : List Char := ['/', 'p', 'l', 'a', 'c', 'e', '/']

/-- One attempt of the regex /place/(\d+) anchored at the head of the list:
the literal segment followed by a maximal nonempty digit run (greedy \d+
never backtracks here, so maximal munch is exact). -/
def placeAt (l : List Char) : Option String :=
  if startsWithL placePat l then
    let ds := (takeDigits (l.drop 7)).1
    if ds.isEmpty then none else some ⟨ds⟩
  else none

/-- re.search of /place/(\d+): try every start position left to right. -/
def placeSearch : List Char → Option String
  | [] => none
  | c :: t =>
    match placeAt (c :: t) with
    | some ds => some ds
    | none => placeSearch t

/-- _extract_place_id: numeric place id following /place/ in the URL. -/
def extract_place_id (url : String) : Option String := placeSearch url.data

/-- A signed decimal as matched by -?\d+\.\d+ anchored at the head: optional
minus, maximal digit run, a dot, maximal digit run; value and rest. -/
def parseSignedDec (l : List Char) : Option (Rat × List Char) :=
  let (neg, l1) :=
    match l with
    | '-' :: t => (true, t)
    | _ => (false, l)
  let (d1, r1) := takeDigits l1
  if d1.isEmpty then none
  else
    match r1 with
    | '.' :: t =>
      let (d2, r2) := takeDigits t
      if d2.isEmpty then none
      else
        let m : Nat := digitsToNat d1 * 10 ^ d2.length + digitsToNat d2
        some (mkRat (if neg then -(m : Int) else (m : Int)) (10 ^ d2.length), r2)
    | _ => none

/-- One attempt of @(-?\d+\.\d+),(-?\d+\.\d+) anchored right after an at
sign. -/
def atAfter (l : List Char) : Option (Rat × Rat) :=
  match parseSignedDec l with
  | none => none
  | some (a, r) =>
    match r with
    | ',' :: r1 =>
      match parseSignedDec r1 with
      | none => none
      | some (b, _) => some (a, b)
    | _ => none

/-- re.search of the at-pattern: try every at sign left to right.  For this
pattern greedy matching never backtracks, so maximal digit runs are exact. -/
def atSearch : List Char → Option (Rat × Rat)
  | [] => none
  | c :: t =>
    if c = '@' then
      match atAfter t with
      | some r => some r
      | none => atSearch t
    else atSearch t

/-- _coords_from_at_pattern: coordinates from the @lat,lng pattern. -/
def coords_from_at_pattern (url : String) : Option (Rat × Rat) :=
  atSearch url.data

/-- _coords_from_params: lat/lng from the URL query parameters (the first
value recorded for each), both parsed as floats; any parse failure yields
none. -/
def coords_from_params (url : String) : Option (Rat × Rat) :=
  let params := parse_qsl (getQuery url)
  match findFirstVal params "lat", findFirstVal params "lng" with
  | some la, some ln =>
    match parsePyFloat la.data, parsePyFloat ln.data with
    | some a, some b => some (a, b)
    | _, _ => none
  | _, _ => none

def PLACE_API_BASE : String := "https://map.naver.com/p/api/place/summary/"

/-- PLACE_API.format(place_id). -/
def placeApiUrl (place_id : String) : String := PLACE_API_BASE ++ place_id

/-- The chain data.placeDetail.coordinate.key through dict.get with the
defaults of the source; none when a .get receiver is not an object. -/
def coordField (body : Json) (key : String) : Option Json :=
  (pyGetD body "data" (Json.obj JsonObj.nil)).bind fun d =>
  (pyGetD d "placeDetail" (Json.obj JsonObj.nil)).bind fun detail =>
  (pyGetD detail "coordinate" (Json.obj JsonObj.nil)).bind fun coord =>
  pyGetD coord key Json.null

/-- The parsing part of _coords_from_place_api applied to the HTTP outcome:
an exception, a non-200 status, a missing or null coordinate or a failing
float conversion all yield none; the name field is kept as the raw JSON
value with the empty-string default. -/
def placeApiParse : HttpResult → Option (Rat × Rat × Json)
  | .exn => none
  | .response status body =>
    if status = 200 then
      (pyGetD body "data" (Json.obj JsonObj.nil)).bind fun d =>
      (pyGetD d "placeDetail" (Json.obj JsonObj.nil)).bind fun detail =>
      (pyGetD detail "coordinate" (Json.obj JsonObj.nil)).bind fun coord =>
      (pyGetD coord "latitude" Json.null).bind fun lat =>
      (pyGetD coord "longitude" Json.null).bind fun lng =>
      if isNull lat || isNull lng then none
      else
        (pyGetD detail "name" (Json.str "")).bind fun nm =>
        (pyFloat lat).bind fun latF =>
        (pyFloat lng).bind fun lngF =>
        some (latF, lngF, nm)
    else none

/-- _coords_from_place_api: one GET to the place summary endpoint; the
second component records the network call performed. -/
def coords_from_place_api (net : Net) (place_id : String) :
    Option (Rat × Rat × Json) × List NetCall :=
  (placeApiParse (net.get (placeApiUrl place_id)), [NetCall.get (placeApiUrl place_id)])

/-- The structured non-error result dict of convert. -/
structure ConvResult where
  lat : Option Rat
  lng : Option Rat
  name : Json
  google_url : String

/-- What a call of convert can do: return the result dict, return the error
dict, or let an exception escape (only possible from short-link
resolution). -/
inductive PyResult where
  | ok (r : ConvResult)
  | errorDict (msg : String)
  | raised

/-- The coordinate target URL maps?q=lat,lng built by the f-string. -/
def gmapsCoordUrl (lat lng : Rat) : String :=
  "https://www.google.com/maps?q=" ++ formatFloat lat ++ "," ++ formatFloat lng

/-- Steps 3 and 4 of convert: the at-pattern, then the free-text search
fallback (percent-decode the URL and percent-encode it into the search
path). -/
def convertStep34 (url : String) : ConvResult :=
  match coords_from_at_pattern url with
  | some (lat, lng) => ⟨some lat, some lng, Json.str "", gmapsCoordUrl lat lng⟩
  | none =>
    ⟨none, none, Json.str (unquote url),
     "https://www.google.com/maps/search/" ++ quote (unquote url)⟩

/-- The name enrichment of step 1: when the URL also carries a place id, the
name from a successful lookup, otherwise the empty string. -/
def step1Name (net : Net) (url : String) : Json :=
  match extract_place_id url with
  | some pid =>
    match (coords_from_place_api net pid).1 with
    | some r => r.2.2
    | none => Json.str ""
  | none => Json.str ""

/-- The network calls performed by step 1 on a coordinate match. -/
def step1Calls (net : Net) (url : String) : List NetCall :=
  match extract_place_id url with
  | some pid => (coords_from_place_api net pid).2
  | none => []

/-- Steps 1 to 4 of convert, on the stripped and short-link-expanded working
URL. -/
def convertResolved (net : Net) (url : String) : PyResult × List NetCall :=
  match coords_from_params url with
  | some (lat, lng) =>
    (PyResult.ok ⟨some lat, some lng, step1Name net url, gmapsCoordUrl lat lng⟩,
     step1Calls net url)
  | none =>
    match extract_place_id url with
    | some pid =>
      ((match (coords_from_place_api net pid).1 with
        | some (lat, lng, nm) =>
          PyResult.ok ⟨some lat, some lng, nm, gmapsCoordUrl lat lng⟩
        | none => PyResult.ok (convertStep34 url)),
       (coords_from_place_api net pid).2)
    | none => (PyResult.ok (convertStep34 url), [])

def nmeMarker : String := "naver.me/"

/-- convert: strip, reject empty input with the error dict, expand short
links (an exception there escapes), then steps 1 to 4. -/
def convert (net : Net) (naver_url : String) : PyResult × List NetCall :=
  if pyStrip naver_url = "" then (PyResult.errorDict "空的輸入", [])
  else if pyIn nmeMarker (pyStrip naver_url) then
    match net.head (pyStrip naver_url) with
    | none => (PyResult.raised, [NetCall.head (pyStrip naver_url)])
    | some u =>
      ((convertResolved net u).1,
       NetCall.head (pyStrip naver_url) :: (convertResolved net u).2)
  else convertResolved net (pyStrip naver_url)


/- A network environment that always fails: head raises, get raises. -/

def trivialNet : Net := ⟨fun _ => none, fun _ => HttpResult.exn⟩

/- Concrete payloads and environments used by the place-lookup claims. -/

def cafePayload : Json :=
  Json.obj (JsonObj.cons "data"
    (Json.obj (JsonObj.cons "placeDetail"
      (Json.obj (JsonObj.cons "coordinate"
        (Json.obj (JsonObj.cons "latitude" (Json.num (mkRat 75 2))
          (JsonObj.cons "longitude" (Json.num (mkRat 127 1)) JsonObj.nil)))
        (JsonObj.cons "name" (Json.str "Cafe X") JsonObj.nil)))
      JsonObj.nil))
    JsonObj.nil)

def cafePayloadNoName : Json :=
  Json.obj (JsonObj.cons "data"
    (Json.obj (JsonObj.cons "placeDetail"
      (Json.obj (JsonObj.cons "coordinate"
        (Json.obj (JsonObj.cons "latitude" (Json.num (mkRat 75 2))
          (JsonObj.cons "longitude" (Json.num (mkRat 127 1)) JsonObj.nil)))
        JsonObj.nil))
      JsonObj.nil))
    JsonObj.nil)

def cafeNet : Net := ⟨fun _ => none, fun _ => HttpResult.response 200 cafePayload⟩

def cafeNetNoName : Net :=
  ⟨fun _ => none, fun _ => HttpResult.response 200 cafePayloadNoName⟩

def net500 : Net := ⟨fun _ => none, fun _ => HttpResult.response 500 Json.null⟩

def noCoordPayload : Json :=
  Json.obj (JsonObj.cons "data" (Json.obj JsonObj.nil) JsonObj.nil)

def cafeNoCoordNet : Net :=
  ⟨fun _ => none, fun _ => HttpResult.response 200 noCoordPayload⟩

/- The network-independent result of convert on static inputs. -/

def convertStatic (url : String) : PyResult × List NetCall :=
  match coords_from_params url with
  | some (lat, lng) =>
    (PyResult.ok ⟨some lat, some lng, Json.str "", gmapsCoordUrl lat lng⟩, [])
  | none => (PyResult.ok (convertStep34 url), [])

end Naver2Google

namespace Naver2Google

/- Basic string facts. -/

theorem strAppend_data (s t : String) : (s ++ t).data = s.data ++ t.data := by
  cases s
  cases t
  rfl

theorem append_ne_empty (s t : String) (h : s ≠ "") : s ++ t ≠ "" := by
  intro he
  apply h
  cases s with
  | mk l =>
    have hd := congrArg String.data he
    rw [strAppend_data] at hd
    have hl : l = [] := (List.append_eq_nil.mp hd).1
    rw [hl]

theorem gmapsCoordUrl_ne_empty (lat lng : Rat) : gmapsCoordUrl lat lng ≠ "" :=
  append_ne_empty _ _ (append_ne_empty _ _ (append_ne_empty _ _ (by decide)))

theorem searchUrl_ne_empty (q : String) :
    "https://www.google.com/maps/search/" ++ q ≠ "" :=
  append_ne_empty _ _ (by decide)

/- Idempotence of stripping. -/

theorem dropWhile_head_false (p : Char → Bool) :
    ∀ l c t, List.dropWhile p l = c :: t → p c = false := by
  intro l
  induction l with
  | nil => intro c t h; exact absurd h (by simp)
  | cons a l2 ih =>
    intro c t h
    rw [List.dropWhile_cons] at h
    cases hp : p a with
    | true => rw [hp] at h; simp at h; exact ih c t h
    | false => rw [hp] at h; simp at h; rw [← h.1]; exact hp

theorem dropWhile_dropWhile (p : Char → Bool) (l : List Char) :
    List.dropWhile p (List.dropWhile p l) = List.dropWhile p l := by
  cases hd : List.dropWhile p l with
  | nil => simp
  | cons c t =>
    have hc := dropWhile_head_false p l c t hd
    rw [List.dropWhile_cons, hc]
    simp

theorem dropWhile_append_single (p : Char → Bool) (c : Char) (h : p c = false) :
    ∀ x : List Char, List.dropWhile p (x ++ [c]) = List.dropWhile p x ++ [c] := by
  intro x
  induction x with
  | nil => simp [List.dropWhile_cons, h]
  | cons a t ih =>
    rw [List.cons_append, List.dropWhile_cons, List.dropWhile_cons]
    cases hp : p a with
    | true => simpa using ih
    | false => simp

theorem dropTrailing_cons_of_neg (p : Char → Bool) (c : Char) (t : List Char)
    (h : p c = false) : dropTrailing p (c :: t) = c :: dropTrailing p t := by
  unfold dropTrailing
  rw [List.reverse_cons, dropWhile_append_single p c h, List.reverse_append]
  simp

theorem dropTrailing_dropTrailing (p : Char → Bool) (l : List Char) :
    dropTrailing p (dropTrailing p l) = dropTrailing p l := by
  unfold dropTrailing
  rw [List.reverse_reverse, dropWhile_dropWhile]

theorem stripL_idem (l : List Char) : stripL (stripL l) = stripL l := by
  unfold stripL
  cases hd : List.dropWhile isPyWs l with
  | nil => simp [dropTrailing]
  | cons c t =>
    have hc := dropWhile_head_false isPyWs l c t hd
    rw [dropTrailing_cons_of_neg _ _ _ hc, List.dropWhile_cons, hc]
    simp only [Bool.false_eq_true, if_false]
    rw [dropTrailing_cons_of_neg _ _ _ hc, dropTrailing_dropTrailing]

theorem pyStrip_idem (s : String) : pyStrip (pyStrip s) = pyStrip s :=
  congrArg String.mk (stripL_idem s.data)

/-- C10: convert is invariant under surrounding whitespace: for every input
string s and every network environment, convert on s equals convert on the
stripped s, because convert strips its input once up front and stripping is
idempotent. -/
theorem C10_strip_invariant (net : Net) (s : String) :
    convert net s = convert net (pyStrip s) := by
  unfold convert
  rw [pyStrip_idem]

/-- C2: for every input that strips to the empty string (empty or
whitespace-only), convert returns the error dict and performs no network
call (the call trace is empty, for every network environment). -/
theorem C2_empty_input (net : Net) (s : String) (h : pyStrip s = "") :
    convert net s = (PyResult.errorDict "空的輸入", []) := by
  unfold convert
  rw [if_pos h]

/-- Witness for C2 at a whitespace-only input. -/
theorem C2_witness :
    pyStrip "  " = "" ∧
    convert trivialNet "  " = (PyResult.errorDict "空的輸入", []) :=
  ⟨rfl, C2_empty_input trivialNet "  " rfl⟩

theorem step34_invariant (url : String) :
    (convertStep34 url).google_url ≠ "" ∧
    ((∃ a b, (convertStep34 url).lat = some a ∧ (convertStep34 url).lng = some b) ∨
     ((convertStep34 url).lat = none ∧ (convertStep34 url).lng = none)) := by
  unfold convertStep34
  cases h : coords_from_at_pattern url with
  | some p =>
    obtain ⟨a, b⟩ := p
    exact ⟨gmapsCoordUrl_ne_empty a b, Or.inl ⟨a, b, rfl, rfl⟩⟩
  | none =>
    exact ⟨searchUrl_ne_empty _, Or.inr ⟨rfl, rfl⟩⟩

theorem convertResolved_ok_invariant (net : Net) (url : String) (r : ConvResult)
    (h : (convertResolved net url).1 = PyResult.ok r) :
    r.google_url ≠ "" ∧
    ((∃ a b, r.lat = some a ∧ r.lng = some b) ∨ (r.lat = none ∧ r.lng = none)) := by
  unfold convertResolved at h
  cases hc : coords_from_params url with
  | some p =>
    obtain ⟨lat, lng⟩ := p
    rw [hc] at h
    simp only [] at h
    injection h with h2
    rw [← h2]
    exact ⟨gmapsCoordUrl_ne_empty lat lng, Or.inl ⟨lat, lng, rfl, rfl⟩⟩
  | none =>
    rw [hc] at h
    simp only [] at h
    cases hp : extract_place_id url with
    | some pid =>
      rw [hp] at h
      simp only [] at h
      cases ha : (coords_from_place_api net pid).1 with
      | some trip =>
        obtain ⟨lat, lng, nm⟩ := trip
        rw [ha] at h
        simp only [] at h
        injection h with h2
        rw [← h2]
        exact ⟨gmapsCoordUrl_ne_empty lat lng, Or.inl ⟨lat, lng, rfl, rfl⟩⟩
      | none =>
        rw [ha] at h
        simp only [] at h
        injection h with h2
        rw [← h2]
        exact step34_invariant url
    | none =>
      rw [hp] at h
      simp only [] at h
      injection h with h2
      rw [← h2]
      exact step34_invariant url

/-- C3: every non-error result of convert has a populated target URL, and
latitude/longitude are both present or both absent. -/
theorem C3_result_invariant (net : Net) (s : String) (r : ConvResult)
    (tr : List NetCall) (h : convert net s = (PyResult.ok r, tr)) :
    r.google_url ≠ "" ∧
    ((∃ a b, r.lat = some a ∧ r.lng = some b) ∨ (r.lat = none ∧ r.lng = none)) := by
  unfold convert at h
  by_cases he : pyStrip s = ""
  · rw [if_pos he] at h
    exact absurd h (by simp)
  · rw [if_neg he] at h
    by_cases hn : pyIn nmeMarker (pyStrip s) = true
    · rw [if_pos hn] at h
      cases hh : net.head (pyStrip s) with
      | none =>
        rw [hh] at h
        exact absurd h (by simp)
      | some u =>
        rw [hh] at h
        simp only [] at h
        have h1 : (convertResolved net u).1 = PyResult.ok r := congrArg Prod.fst h
        exact convertResolved_ok_invariant net u r h1
    · rw [if_neg hn] at h
      exact convertResolved_ok_invariant net (pyStrip s) r (by rw [h])

/-- Witness for C3 at a plain-text input resolved by the fallback. -/
theorem C3_witness :
    convert trivialNet "hello" =
      (PyResult.ok ⟨none, none, Json.str "hello",
        "https://www.google.com/maps/search/hello"⟩, []) ∧
    ((⟨none, none, Json.str "hello",
        "https://www.google.com/maps/search/hello"⟩ : ConvResult).google_url ≠ "" ∧
     ((∃ a b, (⟨none, none, Json.str "hello",
        "https://www.google.com/maps/search/hello"⟩ : ConvResult).lat = some a ∧
        (⟨none, none, Json.str "hello",
        "https://www.google.com/maps/search/hello"⟩ : ConvResult).lng = some b) ∨
      ((⟨none, none, Json.str "hello",
        "https://www.google.com/maps/search/hello"⟩ : ConvResult).lat = none ∧
       (⟨none, none, Json.str "hello",
        "https://www.google.com/maps/search/hello"⟩ : ConvResult).lng = none))) :=
  ⟨rfl, C3_result_invariant trivialNet "hello" _ _ rfl⟩

end Naver2Google

namespace Naver2Google

theorem coords_from_place_api_fst (net : Net) (pid : String) :
    (coords_from_place_api net pid).1 = placeApiParse (net.get (placeApiUrl pid)) :=
  rfl

theorem placeApiParse_non200 (st : Nat) (b : Json) (hst : st ≠ 200) :
    placeApiParse (HttpResult.response st b) = none := by
  simp only [placeApiParse]
  rw [if_neg hst]

/-- C4: during place-ID lookup, a transport exception, a non-200 status, or
a response missing (or null in) the latitude or longitude field makes the
stage a non-match (none) rather than an error; and for a URL with a place
ID and no query coordinates, an HTTP 500 place-lookup response makes
convert produce the stage-3/4 result instead of raising. -/
theorem C4_place_lookup_soft_fail :
    (∀ (net : Net) (pid : String), net.get (placeApiUrl pid) = HttpResult.exn →
      (coords_from_place_api net pid).1 = none) ∧
    (∀ (net : Net) (pid : String) (st : Nat) (b : Json),
      net.get (placeApiUrl pid) = HttpResult.response st b → st ≠ 200 →
      (coords_from_place_api net pid).1 = none) ∧
    (∀ (net : Net) (pid : String) (b : Json),
      net.get (placeApiUrl pid) = HttpResult.response 200 b →
      (coordField b "latitude" = none ∨ coordField b "latitude" = some Json.null ∨
       coordField b "longitude" = none ∨ coordField b "longitude" = some Json.null) →
      (coords_from_place_api net pid).1 = none) ∧
    (∀ (net : Net) (url pid : String) (b : Json),
      pyIn nmeMarker (pyStrip url) = false →
      coords_from_params (pyStrip url) = none →
      extract_place_id (pyStrip url) = some pid →
      net.get (placeApiUrl pid) = HttpResult.response 500 b →
      (convert net url).1 = PyResult.ok (convertStep34 (pyStrip url)) ∧
        (convert net url).1 ≠ PyResult.raised) := by
  refine ⟨?_, ?_, ?_, ?_⟩
  · intro net pid h
    rw [coords_from_place_api_fst, h]
    rfl
  · intro net pid st b h hst
    rw [coords_from_place_api_fst, h]
    exact placeApiParse_non200 st b hst
  · intro net pid b h hm
    rw [coords_from_place_api_fst, h]
    simp only [placeApiParse, if_true]
    unfold coordField at hm
    cases h1 : pyGetD b "data" (Json.obj JsonObj.nil) with
    | none => rfl
    | some d =>
      rw [h1] at hm
      simp only [Option.bind] at hm ⊢
      cases h2 : pyGetD d "placeDetail" (Json.obj JsonObj.nil) with
      | none => rfl
      | some detail =>
        rw [h2] at hm
        simp only [Option.bind] at hm ⊢
        cases h3 : pyGetD detail "coordinate" (Json.obj JsonObj.nil) with
        | none => rfl
        | some coord =>
          rw [h3] at hm
          simp only [Option.bind] at hm ⊢
          cases h4 : pyGetD coord "latitude" Json.null with
          | none => rfl
          | some lat =>
            rw [h4] at hm
            simp only [Option.bind] at hm ⊢
            cases h5 : pyGetD coord "longitude" Json.null with
            | none => rfl
            | some lng =>
              rw [h5] at hm
              simp only [Option.bind] at hm ⊢
              have hnull : (isNull lat || isNull lng) = true := by
                rcases hm with hm | hm | hm | hm
                · exact absurd hm (by simp)
                · injection hm with hm2
                  rw [hm2]
                  rfl
                · exact absurd hm (by simp)
                · injection hm with hm2
                  rw [hm2]
                  simp [isNull]
              rw [if_pos hnull]
  · intro net url pid b hns hq hpid hnet
    have hne : pyStrip url ≠ "" := by
      intro h
      rw [h] at hpid
      have h0 : extract_place_id "" = none := rfl
      rw [h0] at hpid
      exact Option.noConfusion hpid
    have hapi : (coords_from_place_api net pid).1 = none := by
      rw [coords_from_place_api_fst, hnet]
      exact placeApiParse_non200 500 b (by decide)
    have hmain : (convert net url).1 = PyResult.ok (convertStep34 (pyStrip url)) := by
      unfold convert
      rw [if_neg hne, if_neg (by simp [hns])]
      unfold convertResolved
      simp only [hq, hpid, hapi]
    exact ⟨hmain, by rw [hmain]; exact fun hco => PyResult.noConfusion hco⟩

/-- Witness for C4, instantiating each conjunct at a concrete network
environment, place id and URL. -/
theorem C4_witness :
    ((coords_from_place_api trivialNet "12345").1 = none ∧
     trivialNet.get (placeApiUrl "12345") = HttpResult.exn) ∧
    ((coords_from_place_api net500 "12345").1 = none ∧
     net500.get (placeApiUrl "12345") = HttpResult.response 500 Json.null ∧ (500 : Nat) ≠ 200) ∧
    ((coords_from_place_api cafeNoCoordNet "12345").1 = none ∧
     cafeNoCoordNet.get (placeApiUrl "12345") = HttpResult.response 200 noCoordPayload ∧
     coordField noCoordPayload "latitude" = some Json.null) ∧
    ((convert net500 "https://map.naver.com/p/place/12345").1 =
      PyResult.ok (convertStep34 (pyStrip "https://map.naver.com/p/place/12345")) ∧
     (convert net500 "https://map.naver.com/p/place/12345").1 ≠ PyResult.raised) :=
  ⟨⟨C4_place_lookup_soft_fail.1 trivialNet "12345" rfl, rfl⟩,
   ⟨C4_place_lookup_soft_fail.2.1 net500 "12345" 500 Json.null rfl (by decide), rfl, by decide⟩,
   ⟨C4_place_lookup_soft_fail.2.2.1 cafeNoCoordNet "12345" noCoordPayload rfl
      (Or.inr (Or.inl rfl)), rfl, rfl⟩,
   C4_place_lookup_soft_fail.2.2.2 net500 "https://map.naver.com/p/place/12345" "12345"
     Json.null rfl rfl rfl rfl⟩

end Naver2Google

namespace Naver2Google

/-- C5: for a URL with a /place/(digits) path segment and no query
coordinates, a successful place lookup whose payload carries
data.placeDetail.coordinate 37.5/127.0 and name "Cafe X" makes convert
return exactly those coordinates and that name; without a name field the
name defaults to the empty string. -/
theorem C5_place_lookup_success (net : Net) (url pid : String)
    (hns : pyIn nmeMarker (pyStrip url) = false)
    (hq : coords_from_params (pyStrip url) = none)
    (hpid : extract_place_id (pyStrip url) = some pid) :
    (net.get (placeApiUrl pid) = HttpResult.response 200 cafePayload →
      (convert net url).1 = PyResult.ok ⟨some (mkRat 75 2), some (mkRat 127 1),
        Json.str "Cafe X", "https://www.google.com/maps?q=37.5,127.0"⟩) ∧
    (net.get (placeApiUrl pid) = HttpResult.response 200 cafePayloadNoName →
      (convert net url).1 = PyResult.ok ⟨some (mkRat 75 2), some (mkRat 127 1),
        Json.str "", "https://www.google.com/maps?q=37.5,127.0"⟩) := by
  have hne : pyStrip url ≠ "" := by
    intro h
    rw [h] at hpid
    have h0 : extract_place_id "" = none := rfl
    rw [h0] at hpid
    exact Option.noConfusion hpid
  constructor
  · intro hnet
    have hapi : (coords_from_place_api net pid).1 =
        some (mkRat 75 2, mkRat 127 1, Json.str "Cafe X") := by
      rw [coords_from_place_api_fst, hnet]
      rfl
    unfold convert
    rw [if_neg hne, if_neg (by simp [hns])]
    unfold convertResolved
    simp only [hq, hpid, hapi]
    rfl
  · intro hnet
    have hapi : (coords_from_place_api net pid).1 =
        some (mkRat 75 2, mkRat 127 1, Json.str "") := by
      rw [coords_from_place_api_fst, hnet]
      rfl
    unfold convert
    rw [if_neg hne, if_neg (by simp [hns])]
    unfold convertResolved
    simp only [hq, hpid, hapi]
    rfl

/-- Witness for C5 at a concrete place URL, once with the full payload and
once with the payload lacking the name field. -/
theorem C5_witness :
    coords_from_params (pyStrip "https://map.naver.com/p/place/12345") = none ∧
    extract_place_id (pyStrip "https://map.naver.com/p/place/12345") = some "12345" ∧
    (convert cafeNet "https://map.naver.com/p/place/12345").1 =
      PyResult.ok ⟨some (mkRat 75 2), some (mkRat 127 1), Json.str "Cafe X",
        "https://www.google.com/maps?q=37.5,127.0"⟩ ∧
    (convert cafeNetNoName "https://map.naver.com/p/place/12345").1 =
      PyResult.ok ⟨some (mkRat 75 2), some (mkRat 127 1), Json.str "",
        "https://www.google.com/maps?q=37.5,127.0"⟩ :=
  ⟨rfl, rfl,
   (C5_place_lookup_success cafeNet "https://map.naver.com/p/place/12345" "12345" rfl rfl rfl).1 rfl,
   (C5_place_lookup_success cafeNetNoName "https://map.naver.com/p/place/12345" "12345" rfl rfl rfl).2 rfl⟩

end Naver2Google

namespace Naver2Google

/- Substring-test monotonicity under stripping (for C9). -/

theorem startsWithL_append (n : List Char) : ∀ m v, startsWithL n m = true →
    startsWithL n (m ++ v) = true := by
  induction n with
  | nil => intro m v _; rfl
  | cons a n2 ih =>
    intro m v h
    cases m with
    | nil => exact absurd h (by simp [startsWithL])
    | cons b m2 =>
      simp only [startsWithL, Bool.and_eq_true] at h
      simp only [List.cons_append, startsWithL, Bool.and_eq_true]
      exact ⟨h.1, ih m2 v h.2⟩

theorem containsL_nil_needle : ∀ l : List Char, containsL [] l = true := by
  intro l
  cases l with
  | nil => rfl
  | cons c t => simp [containsL, startsWithL]

theorem containsL_cons (n : List Char) (c : Char) (t : List Char)
    (h : containsL n t = true) : containsL n (c :: t) = true := by
  simp only [containsL, Bool.or_eq_true]
  exact Or.inr h

theorem containsL_append_left (n : List Char) : ∀ u m, containsL n m = true →
    containsL n (u ++ m) = true := by
  intro u
  induction u with
  | nil => intro m h; exact h
  | cons c t ih => intro m h; exact containsL_cons n c (t ++ m) (ih m h)

theorem containsL_append_right (n : List Char) : ∀ m v, containsL n m = true →
    containsL n (m ++ v) = true := by
  intro m
  induction m with
  | nil =>
    intro v h
    cases n with
    | nil => exact containsL_nil_needle v
    | cons a t => exact absurd h (by simp [containsL])
  | cons c t ih =>
    intro v h
    simp only [containsL, Bool.or_eq_true] at h
    rcases h with h | h
    · simp only [List.cons_append, containsL, Bool.or_eq_true]
      exact Or.inl (startsWithL_append n (c :: t) v h)
    · simp only [List.cons_append, containsL, Bool.or_eq_true]
      exact Or.inr (ih v h)

theorem takeWhile_append_dropWhile_my (p : Char → Bool) (l : List Char) :
    List.takeWhile p l ++ List.dropWhile p l = l := by
  induction l with
  | nil => rfl
  | cons a t ih =>
    rw [List.takeWhile_cons, List.dropWhile_cons]
    cases hp : p a with
    | true => simp [ih]
    | false => simp

theorem rev_decomp (p : Char → Bool) (m : List Char) :
    m = dropTrailing p m ++ (m.reverse.takeWhile p).reverse := by
  unfold dropTrailing
  have h1 := takeWhile_append_dropWhile_my p m.reverse
  have h2 := congrArg List.reverse h1
  rw [List.reverse_append, List.reverse_reverse] at h2
  exact h2.symm

theorem exists_strip_decomp (l : List Char) : ∃ u w, l = u ++ stripL l ++ w := by
  refine ⟨List.takeWhile isPyWs l,
    ((List.dropWhile isPyWs l).reverse.takeWhile isPyWs).reverse, ?_⟩
  have h1 := (takeWhile_append_dropWhile_my isPyWs l).symm
  have h2 : List.dropWhile isPyWs l = stripL l ++
      ((List.dropWhile isPyWs l).reverse.takeWhile isPyWs).reverse :=
    rev_decomp isPyWs (List.dropWhile isPyWs l)
  rw [h2] at h1
  conv_lhs => rw [h1]
  rw [List.append_assoc]

theorem pyIn_strip_mono (needle s : String) (h : pyIn needle s = false) :
    pyIn needle (pyStrip s) = false := by
  cases hc : containsL needle.data (stripL s.data) with
  | false => exact hc
  | true =>
    exfalso
    obtain ⟨u, w, hd⟩ := exists_strip_decomp s.data
    have h1 := containsL_append_right needle.data (stripL s.data) w hc
    have h2 := containsL_append_left needle.data u (stripL s.data ++ w) h1
    rw [← List.append_assoc] at h2
    rw [← hd] at h2
    unfold pyIn at h
    rw [h] at h2
    exact Bool.noConfusion h2

/- Place-id search monotonicity under stripping (for C9). -/

theorem startsWithL_length (n : List Char) : ∀ l, startsWithL n l = true →
    n.length ≤ l.length := by
  induction n with
  | nil => intro l _; simp
  | cons a n2 ih =>
    intro l h
    cases l with
    | nil => exact absurd h (by simp [startsWithL])
    | cons b m =>
      simp only [startsWithL, Bool.and_eq_true] at h
      simp only [List.length_cons]
      exact Nat.succ_le_succ (ih m h.2)

theorem drop_append_le (v : List Char) : ∀ (n : Nat) (l : List Char), n ≤ l.length →
    (l ++ v).drop n = l.drop n ++ v := by
  intro n
  induction n with
  | zero => intro l _; simp
  | succ k ih =>
    intro l h
    cases l with
    | nil => simp at h
    | cons a t =>
      simp only [List.cons_append, List.drop_succ_cons]
      exact ih t (Nat.le_of_succ_le_succ h)

theorem placeAt_append (l v : List Char) (ds : String) (h : placeAt l = some ds) :
    (placeAt (l ++ v)).isSome = true := by
  unfold placeAt at h ⊢
  by_cases hsw : startsWithL placePat l = true
  · rw [if_pos hsw] at h
    rw [if_pos (startsWithL_append placePat l v hsw)]
    have hlen : 7 ≤ l.length := startsWithL_length placePat l hsw
    rw [drop_append_le v 7 l hlen]
    cases hcase : (takeDigits (l.drop 7)).1.isEmpty with
    | true => rw [if_pos hcase] at h; exact Option.noConfusion h
    | false =>
      cases hd7 : l.drop 7 with
      | nil => rw [hd7] at hcase; simp [takeDigits] at hcase
      | cons d t =>
        cases hdig : Char.isDigit d with
        | false =>
          rw [hd7] at hcase
          simp [takeDigits, List.takeWhile_cons, hdig] at hcase
        | true =>
          simp [takeDigits, List.takeWhile_cons, hdig]
  · rw [if_neg hsw] at h
    exact Option.noConfusion h

theorem placeSearch_cons_isSome (c : Char) (m : List Char)
    (h : (placeSearch m).isSome = true) : (placeSearch (c :: m)).isSome = true := by
  simp only [placeSearch]
  cases hp : placeAt (c :: m) with
  | some ds => simp
  | none => simpa using h

theorem placeSearch_append_left (u m : List Char)
    (h : (placeSearch m).isSome = true) : (placeSearch (u ++ m)).isSome = true := by
  induction u with
  | nil => exact h
  | cons c t ih => exact placeSearch_cons_isSome c (t ++ m) ih

theorem placeSearch_append_right (m v : List Char) :
    (placeSearch m).isSome = true → (placeSearch (m ++ v)).isSome = true := by
  induction m with
  | nil => intro h; simp [placeSearch] at h
  | cons c t ih =>
    intro h
    simp only [placeSearch] at h
    cases hp : placeAt (c :: t) with
    | some ds =>
      have h2 := placeAt_append (c :: t) v ds hp
      rw [List.cons_append] at h2
      rw [List.cons_append]
      simp only [placeSearch]
      cases hq : placeAt (c :: (t ++ v)) with
      | some ds2 => simp
      | none => rw [hq] at h2; simp at h2
    | none =>
      rw [hp] at h
      simp only [] at h
      have h3 := ih h
      have h4 := placeSearch_cons_isSome c (t ++ v) h3
      rw [List.cons_append]
      exact h4

theorem extract_strip_mono (s : String) (h : extract_place_id s = none) :
    extract_place_id (pyStrip s) = none := by
  cases he : extract_place_id (pyStrip s) with
  | none => rfl
  | some d =>
    exfalso
    have h1 : (placeSearch (stripL s.data)).isSome = true := by
      show (extract_place_id (pyStrip s)).isSome = true
      rw [he]
      rfl
    obtain ⟨u, w, hd⟩ := exists_strip_decomp s.data
    have h2 := placeSearch_append_right (stripL s.data) w h1
    have h3 := placeSearch_append_left u (stripL s.data ++ w) h2
    rw [← List.append_assoc] at h3
    rw [← hd] at h3
    unfold extract_place_id at h
    rw [h] at h3
    simp at h3

theorem convertResolved_static (net : Net) (url : String)
    (h : extract_place_id url = none) :
    convertResolved net url = convertStatic url := by
  unfold convertResolved convertStatic
  cases hc : coords_from_params url with
  | some p =>
    obtain ⟨lat, lng⟩ := p
    simp only [step1Name, step1Calls, h]
  | none =>
    simp only [h]

theorem convertStatic_snd (url : String) : (convertStatic url).2 = [] := by
  unfold convertStatic
  cases hc : coords_from_params url with
  | some p => obtain ⟨a, b⟩ := p; rfl
  | none => rfl

/-- C9: on static inputs (no short-link marker and no place-id segment) the
output of convert does not depend on the network environment at all (so two
calls agree), and no network call is performed. -/
theorem C9_static_deterministic (net1 net2 : Net) (s : String)
    (hns : pyIn nmeMarker s = false)
    (hpl : extract_place_id s = none) :
    convert net1 s = convert net2 s ∧ (convert net1 s).2 = [] := by
  have hns2 := pyIn_strip_mono nmeMarker s hns
  have hpl2 := extract_strip_mono s hpl
  by_cases he : pyStrip s = ""
  · constructor
    · unfold convert
      rw [if_pos he, if_pos he]
    · unfold convert
      rw [if_pos he]
  · have key : ∀ net : Net, convert net s = convertStatic (pyStrip s) := by
      intro net
      unfold convert
      rw [if_neg he, if_neg (by simp [hns2])]
      exact convertResolved_static net (pyStrip s) hpl2
    rw [key net1, key net2]
    exact ⟨rfl, convertStatic_snd (pyStrip s)⟩

/-- Witness for C9 at a static input, with two different network
environments. -/
theorem C9_witness :
    pyIn nmeMarker "myplace@1.5,2.5" = false ∧
    extract_place_id "myplace@1.5,2.5" = none ∧
    convert trivialNet "myplace@1.5,2.5" = convert net500 "myplace@1.5,2.5" ∧
    (convert trivialNet "myplace@1.5,2.5").2 = [] :=
  ⟨rfl, rfl,
   (C9_static_deterministic trivialNet net500 "myplace@1.5,2.5" rfl rfl).1,
   (C9_static_deterministic trivialNet net500 "myplace@1.5,2.5" rfl rfl).2⟩

end Naver2Google

namespace Naver2Google

/- Leftmost-match machinery for the at-pattern (for C7). -/

theorem dropWhile_mem (p : Char → Bool) : ∀ (l : List Char) (c : Char),
    c ∈ List.dropWhile p l → c ∈ l := by
  intro l
  induction l with
  | nil => intro c hc; simp at hc
  | cons a t ih =>
    intro c hc
    rw [List.dropWhile_cons] at hc
    cases hp : p a with
    | true =>
      rw [hp] at hc
      simp only [if_true] at hc
      exact List.mem_cons_of_mem a (ih c hc)
    | false =>
      rw [hp] at hc
      simp only [Bool.false_eq_true, if_false] at hc
      exact hc

theorem my_dropWhile_append (p : Char → Bool) :
    ∀ x m : List Char, List.dropWhile p (x ++ m) =
      if (List.dropWhile p x).isEmpty then List.dropWhile p m
      else List.dropWhile p x ++ m := by
  intro x
  induction x with
  | nil => intro m; simp
  | cons a t ih =>
    intro m
    simp only [List.cons_append, List.dropWhile_cons]
    cases hp : p a with
    | true => simp [ih]
    | false => simp

theorem dropTrailing_append_last (p : Char → Bool) (y : List Char) (c : Char)
    (hc : p c = false) : dropTrailing p (y ++ [c]) = y ++ [c] := by
  unfold dropTrailing
  have h1 : (y ++ [c]).reverse = c :: y.reverse := by simp
  rw [h1, List.dropWhile_cons, hc]
  simp

theorem stripL_pre_at (x : List Char) :
    ∃ x2, stripL (x ++ "@37.123,127.456".data) = x2 ++ "@37.123,127.456".data ∧
      ∀ c ∈ x2, c ∈ x := by
  have hdecomp : "@37.123,127.456".data = "@37.123,127.45".data ++ ['6'] := rfl
  unfold stripL
  rw [my_dropWhile_append isPyWs x "@37.123,127.456".data]
  by_cases hemp : (List.dropWhile isPyWs x).isEmpty = true
  · rw [if_pos hemp]
    refine ⟨[], ?_, by intro c hc; simp at hc⟩
    have hat : List.dropWhile isPyWs "@37.123,127.456".data = "@37.123,127.456".data := rfl
    rw [hat, hdecomp, dropTrailing_append_last isPyWs _ '6' (by decide)]
    simp
  · rw [if_neg hemp]
    refine ⟨List.dropWhile isPyWs x, ?_, fun c hc => dropWhile_mem isPyWs x c hc⟩
    rw [hdecomp, ← List.append_assoc, dropTrailing_append_last isPyWs _ '6' (by decide)]

theorem atSearch_skip : ∀ (x m : List Char), (∀ c ∈ x, c ≠ '@') →
    atSearch (x ++ m) = atSearch m := by
  intro x
  induction x with
  | nil => intro m _; rfl
  | cons c t ih =>
    intro m hx
    have hc : ¬ (c = '@') := hx c (List.mem_cons_self c t)
    simp only [List.cons_append, atSearch]
    rw [if_neg hc]
    exact ih m (fun d hd => hx d (List.mem_cons_of_mem c hd))

theorem atSearch_atText : atSearch "@37.123,127.456".data =
    some (mkRat 37123 1000, mkRat 127456 1000) := rfl

/-- C7 counterexample: the claim as stated is false.  The input below
contains the text @37.123,127.456, has no lat/lng query parameters, no
short-link marker and no place-id segment, yet convert returns 1.5/2.5 (the
leftmost at-pattern match), not 37.123/127.456. -/
theorem C7_counterexample :
    pyIn "@37.123,127.456" "@1.5,2.5@37.123,127.456" = true ∧
    pyIn nmeMarker (pyStrip "@1.5,2.5@37.123,127.456") = false ∧
    coords_from_params (pyStrip "@1.5,2.5@37.123,127.456") = none ∧
    extract_place_id (pyStrip "@1.5,2.5@37.123,127.456") = none ∧
    (convert trivialNet "@1.5,2.5@37.123,127.456").1 =
      PyResult.ok ⟨some (mkRat 3 2), some (mkRat 5 2), Json.str "",
        "https://www.google.com/maps?q=1.5,2.5"⟩ ∧
    (mkRat 3 2 ≠ mkRat 37123 1000 ∧ mkRat 5 2 ≠ mkRat 127456 1000) :=
  ⟨rfl, rfl, rfl, rfl, rfl, by decide, by decide⟩

/-- C7 (amended): for every URL of the form pre ++ "@37.123,127.456" whose
prefix contains no at sign (so the appended pattern is the leftmost
at-pattern match), with no short-link marker, no lat/lng query parameters
and no successful place lookup, convert returns latitude 37.123 and
longitude 127.456. -/
theorem C7_leftmost_at_pattern (net : Net) (pre url : String)
    (hurl : url = pre ++ "@37.123,127.456")
    (hpre : ∀ c ∈ pre.data, c ≠ '@')
    (hns : pyIn nmeMarker (pyStrip url) = false)
    (hq : coords_from_params (pyStrip url) = none)
    (hpl : ∀ pid, extract_place_id (pyStrip url) = some pid →
      (coords_from_place_api net pid).1 = none) :
    (convert net url).1 = PyResult.ok ⟨some (mkRat 37123 1000),
      some (mkRat 127456 1000), Json.str "",
      "https://www.google.com/maps?q=37.123,127.456"⟩ := by
  obtain ⟨x2, hx2, hmem⟩ := stripL_pre_at pre.data
  have hdata : url.data = pre.data ++ "@37.123,127.456".data := by
    rw [hurl, strAppend_data]
  have hstrip : pyStrip url = ⟨x2 ++ "@37.123,127.456".data⟩ := by
    unfold pyStrip
    rw [hdata, hx2]
  have hat : coords_from_at_pattern (pyStrip url) =
      some (mkRat 37123 1000, mkRat 127456 1000) := by
    rw [hstrip]
    show atSearch (x2 ++ "@37.123,127.456".data) = _
    rw [atSearch_skip x2 _ (fun c hc => hpre c (hmem c hc))]
    exact atSearch_atText
  have hne : pyStrip url ≠ "" := by
    rw [hstrip]
    intro hcon
    have hd := congrArg String.data hcon
    have h2 : "@37.123,127.456".data = [] := (List.append_eq_nil.mp hd).2
    exact absurd h2 (by decide)
  unfold convert
  rw [if_neg hne, if_neg (by simp [hns])]
  unfold convertResolved
  simp only [hq]
  cases hpl0 : extract_place_id (pyStrip url) with
  | some pid =>
    simp only [hpl pid hpl0]
    unfold convertStep34
    simp only [hat]
    rfl
  | none =>
    unfold convertStep34
    simp only [hat]
    rfl

/-- Witness for the amended C7 at a concrete URL whose prefix has no at
sign. -/
theorem C7_witness :
    ("x@37.123,127.456" : String) = "x" ++ "@37.123,127.456" ∧
    (∀ c ∈ ("x" : String).data, c ≠ '@') ∧
    pyIn nmeMarker (pyStrip "x@37.123,127.456") = false ∧
    coords_from_params (pyStrip "x@37.123,127.456") = none ∧
    (convert trivialNet "x@37.123,127.456").1 =
      PyResult.ok ⟨some (mkRat 37123 1000), some (mkRat 127456 1000), Json.str "",
        "https://www.google.com/maps?q=37.123,127.456"⟩ :=
  ⟨rfl, by decide, rfl, rfl,
   C7_leftmost_at_pattern trivialNet "x" "x@37.123,127.456" rfl (by decide) rfl rfl
     (fun pid h => Option.noConfusion h)⟩

/-- C8 counterexample: the claim as stated quantifies over every non-empty
input, but a whitespace-only input is non-empty, matches no stage, and
convert returns the error dict rather than a fallback search URL. -/
theorem C8_counterexample :
    (" " : String) ≠ "" ∧
    coords_from_params " " = none ∧
    extract_place_id " " = none ∧
    coords_from_at_pattern " " = none ∧
    (convert trivialNet " ").1 = PyResult.errorDict "空的輸入" ∧
    ∀ r : ConvResult, PyResult.errorDict "空的輸入" ≠ PyResult.ok r :=
  ⟨by decide, rfl, rfl, rfl, rfl, fun r h => PyResult.noConfusion h⟩

/-- C8 (amended): for every input that is non-empty after stripping, does
not trigger short-link expansion, and matches neither the query-parameter
stage, the place-id stage (no id, or only failing lookups) nor the
at-pattern stage, convert succeeds with absent coordinates and the
non-empty text-search URL built by percent-encoding the percent-decoded
stripped input. -/
theorem C8_fallback (net : Net) (s : String)
    (hne : pyStrip s ≠ "")
    (hns : pyIn nmeMarker (pyStrip s) = false)
    (hq : coords_from_params (pyStrip s) = none)
    (hpl : ∀ pid, extract_place_id (pyStrip s) = some pid →
      (coords_from_place_api net pid).1 = none)
    (hat : coords_from_at_pattern (pyStrip s) = none) :
    (convert net s).1 = PyResult.ok ⟨none, none, Json.str (unquote (pyStrip s)),
      "https://www.google.com/maps/search/" ++ quote (unquote (pyStrip s))⟩ ∧
    "https://www.google.com/maps/search/" ++ quote (unquote (pyStrip s)) ≠ "" := by
  refine ⟨?_, searchUrl_ne_empty _⟩
  unfold convert
  rw [if_neg hne, if_neg (by simp [hns])]
  unfold convertResolved
  simp only [hq]
  cases hpl0 : extract_place_id (pyStrip s) with
  | some pid =>
    simp only [hpl pid hpl0]
    unfold convertStep34
    simp only [hat]
  | none =>
    unfold convertStep34
    simp only [hat]

/-- Witness for the amended C8 at a percent-encoded free-text input. -/
theorem C8_witness :
    pyStrip "Seoul%20Cafe" ≠ "" ∧
    coords_from_params (pyStrip "Seoul%20Cafe") = none ∧
    coords_from_at_pattern (pyStrip "Seoul%20Cafe") = none ∧
    ((convert trivialNet "Seoul%20Cafe").1 =
      PyResult.ok ⟨none, none, Json.str (unquote (pyStrip "Seoul%20Cafe")),
        "https://www.google.com/maps/search/" ++ quote (unquote (pyStrip "Seoul%20Cafe"))⟩ ∧
     "https://www.google.com/maps/search/" ++ quote (unquote (pyStrip "Seoul%20Cafe")) ≠ "") :=
  ⟨by decide, rfl, rfl,
   C8_fallback trivialNet "Seoul%20Cafe" (by decide) rfl rfl
     (fun pid h => Option.noConfusion h) rfl⟩

end Naver2Google
